import Mathlib

/-!
# foxpost-watcher: shallow embedding and verification

A shallow embedding of the Go program `main.go` of the repository
`marcsello/foxpost-watcher` (the current revision, the one with the
dry-run mode), together with theorems settling the specification claims.

External collaborators (HTTP transport with its retry policy, JSON
decoding, the InfluxDB client, the environment-variable library, clocks
and timers) are modelled as inputs: every run takes an explicit
environment describing the outcomes the external world would produce,
and the embedding reproduces what the program does with those outcomes.
Observable side effects (write submissions, log-worthy events) are
returned as explicit traces.
-/

/-- Go `float64` values occur in this program only as opaque pass-through
data: `geolat`/`geolng` are copied from the decoded feed record into the
emitted field set and never computed with. We model them by their raw
IEEE-754 bit pattern. -/
structure Float64 where
  bits : Nat
  deriving DecidableEq, Repr

/-- `APMData` (main.go): one decoded record of the upstream feed. -/
structure APMData where
  placeID : Nat        -- uint64 `place_id`
  operatorID : String  -- `operator_id`
  name : String        -- `name`
  geoLat : Float64     -- `geolat`
  geoLng : Float64     -- `geolng`
  load : String        -- `load`
  deriving DecidableEq, Repr

/-- The entries of the `loadMap` map literal (main.go), in source order. -/
def loadMapEntries : List (String × Nat) :=
  [("", 10), ("normal loaded", 10), ("medium loaded", 70), ("overloaded", 100)]

/-- `loadMap[label]` with its `ok` flag: Go map lookup in the fixed
`map[string]uint8` literal. `none` models `ok = false`. -/
def loadMap (label : String) : Option Nat :=
  loadMapEntries.lookup label

/-- `slices.Contains(ic.placeIDs, apmData.PlaceID)` (main.go, the locker
filter inside `run`). -/
def lockerFilter (placeIDs : List Nat) (p : Nat) : Bool :=
  placeIDs.contains p

/-- The `tags` map built in `run` (fixed keys). -/
structure Tags where
  place_id : String
  operator_id : String
  name : String
  deriving DecidableEq, Repr

/-- The `fields` map built in `run` (fixed keys; `load` is the uint8
severity, the coordinates are passed through). -/
structure Fields where
  load : Nat
  geoLat : Float64
  geoLng : Float64
  deriving DecidableEq, Repr

/-- `influxdb2.NewPoint(ic.influxMeasurement, tags, fields, ts)`. -/
structure Point where
  measurement : String
  tags : Tags
  fields : Fields
  time : Nat
  deriving DecidableEq, Repr

/-- `InstanceConfig` (main.go). The opaque `influxClient` handle is
modelled by whether it was constructed at all. -/
structure InstanceConfig where
  timeout : Nat
  placeIDs : List Nat
  influxClientSet : Bool
  influxOrg : String
  influxBucket : String
  influxMeasurement : String
  dryRun : Bool
  deriving DecidableEq, Repr

/-- The point built for one qualifying record in `run`:
`strconv.FormatUint(p, 10)` is the decimal rendering of the id. -/
def mkPoint (ic : InstanceConfig) (d : APMData) (loadVal : Nat) (ts : Nat) : Point :=
  { measurement := ic.influxMeasurement
    tags := { place_id := Nat.repr d.placeID, operator_id := d.operatorID, name := d.name }
    fields := { load := loadVal, geoLat := d.geoLat, geoLng := d.geoLng }
    time := ts }

/-! ## Configuration loading (`loadConfig`) -/

/-- Go `strings.Split(s, ",")` on the character list: split around every
comma; like Go, the result is never empty (splitting the empty string
yields one empty substring). -/
def splitComma : List Char → List (List Char)
  | [] => [[]]
  | c :: rest =>
    match splitComma rest with
    | [] => [[]]
    | g :: gs => if c = ',' then [] :: g :: gs else (c :: g) :: gs

/-- Go `strconv.ParseUint(v, 10, 64)`: succeeds exactly on a non-empty
all-decimal-digit string whose value fits in 64 bits (no sign, no
underscores in base 10); `none` models the error return. -/
def parseUint64 (s : List Char) : Option Nat :=
  if s = [] then none
  else if s.all (fun c => c.isDigit) then
    let n := s.foldl (fun acc c => acc * 10 + (c.toNat - '0'.toNat)) 0
    if n < 2 ^ 64 then some n else none
  else none

/-- The ways `loadConfig` can panic. -/
inductive ConfigPanic where
  | missingEnv (name : String)  -- `env.StringOrPanic` on an unset variable
  | noPlaceIds                  -- `panic("no place ids?")`
  | invalidPlaceId              -- `panic("invalid place id")`
  | healthCheckFailed           -- `panic("influxdb health check failed")`
  deriving DecidableEq, Repr

/-- The place-id parsing loop of `loadConfig`: parse every comma-separated
piece, panicking at the first one `ParseUint` rejects. -/
def parseAllPlaceIDs : List (List Char) → Except ConfigPanic (List Nat)
  | [] => .ok []
  | p :: rest =>
    match parseUint64 p with
    | none => .error .invalidPlaceId
    | some n =>
      match parseAllPlaceIDs rest with
      | .error e => .error e
      | .ok ns => .ok (n :: ns)

/-- Lines 77-90 of `loadConfig`: split `FOXPOST_PLACE_IDS` on commas,
panic `noPlaceIds` when the split is empty, then parse every piece. -/
def parsePlaceIDs (s : String) : Except ConfigPanic (List Nat) :=
  let parts := splitComma s.data
  if parts.length = 0 then .error .noPlaceIds
  else parseAllPlaceIDs parts

/-- The process environment as `loadConfig` sees it. `vars` is raw
environment-variable lookup; the `env` library's parsing of the boolean
and duration variables is external, so their parsed values are carried
directly; `healthOk` is the outcome the InfluxDB health check would have
if it were performed. -/
structure GoEnv where
  vars : String → Option String
  dryRunFlag : Bool   -- parsed `env.Bool("DRY_RUN", false)`
  timeoutVal : Nat    -- parsed `env.Duration("INVOCATION_TIMEOUT", time.Minute)`
  healthOk : Bool

/-- `env.StringOrPanic(name)`. -/
def stringOrPanic (e : GoEnv) (name : String) : Except ConfigPanic String :=
  match e.vars name with
  | some v => .ok v
  | none => .error (.missingEnv name)

/-- `env.String(name, default)`. -/
def envString (e : GoEnv) (name dflt : String) : String :=
  (e.vars name).getD dflt

/-- Externally observable backend-setup actions of `loadConfig`. -/
inductive ConfigEvent where
  | influxClientSetup   -- `influxdb2.NewClientWithOptions(...)`
  | influxHealthCheck   -- `influxClient.Health(...)`
  deriving DecidableEq, Repr

/-- `loadConfig` (main.go): place ids, then the dry-run switch; in real
mode read the backend settings, build the client and health-check it
(the extra-CA TLS handling only mutates the opaque client options, so it
has no observable effect here); in dry-run mode skip all backend setup.
Returns the backend-setup events performed alongside the result. -/
def loadConfig (e : GoEnv) : List ConfigEvent × Except ConfigPanic InstanceConfig :=
  match stringOrPanic e "FOXPOST_PLACE_IDS" with
  | .error p => ([], .error p)
  | .ok placeIDsStr =>
    match parsePlaceIDs placeIDsStr with
    | .error p => ([], .error p)
    | .ok placeIDs =>
      if e.dryRunFlag then
        ([], .ok { timeout := e.timeoutVal, placeIDs := placeIDs,
                   influxClientSet := false, influxOrg := "", influxBucket := "",
                   influxMeasurement := envString e "INFLUX_MEASUREMENT" "foxpost",
                   dryRun := true })
      else
        match stringOrPanic e "INFLUX_SERVER_ORG" with
        | .error p => ([], .error p)
        | .ok org =>
          match stringOrPanic e "INFLUX_SERVER_BUCKET" with
          | .error p => ([], .error p)
          | .ok bucket =>
            match stringOrPanic e "INFLUX_SERVER_URL" with
            | .error p => ([], .error p)
            | .ok _url =>
              match stringOrPanic e "INFLUX_SERVER_TOKEN" with
              | .error p => ([], .error p)
              | .ok _token =>
                if e.healthOk then
                  ([.influxClientSetup, .influxHealthCheck],
                   .ok { timeout := e.timeoutVal, placeIDs := placeIDs,
                         influxClientSet := true, influxOrg := org, influxBucket := bucket,
                         influxMeasurement := envString e "INFLUX_MEASUREMENT" "foxpost",
                         dryRun := false })
                else
                  ([.influxClientSetup, .influxHealthCheck], .error .healthCheckFailed)

/-! ## Emitter (`GetWriter`) and collection cycle (`run`) -/

/-- What one call of the writer closure visibly does (log formatting
itself is out of scope, so the dry-run log entry carries the point it
renders). -/
inductive EmitEvent where
  | dryRunLog (p : Point)    -- `log.Printf("[DRY RUN]: Would write datapoint: ...")`
  | backendWrite (p : Point) -- `writeAPI.WritePoint(ctx, p)`
  deriving DecidableEq, Repr

/-- `(*InstanceConfig).GetWriter`: in dry-run mode a closure that formats
and logs the point and returns nil; otherwise a closure around the
blocking write API, whose outcome is external (`backendErr k` is the
error the backend returns for the k-th write call, `none` = success). -/
def GetWriter (ic : InstanceConfig) (backendErr : Nat → Option String) :
    Nat → Point → EmitEvent × Option String :=
  if ic.dryRun then
    fun _ p => (.dryRunLog p, none)
  else
    fun k p => (.backendWrite p, backendErr k)

/-- The outcome of `cl.Do(req)`: the retrying client either gives up with
a transport error or hands back one final response. The response body is
carried as the result JSON decoding would produce on it. -/
inductive DoOutcome where
  | doErr (msg : String)
  | resp (status : Nat) (body : Except String (List APMData))

/-- The external world one invocation of `run` interacts with. -/
structure RunEnv where
  reqErr : Option String        -- `retryablehttp.NewRequestWithContext` error
  fetch : DoOutcome             -- final outcome of `cl.Do(req)`
  now : Nat                     -- value of the single `time.Now()` call
  backendErr : Nat → Option String  -- backend outcome of the k-th write
  ctxErr : Nat → Option String  -- `ctx.Err()` at the check ending iteration i

/-- The error `run` returns. -/
inductive RunError where
  | requestError (msg : String)       -- request creation or transport failure
  | unexpectedStatus (status : Nat)   -- `unexpected HTTP status: %d`
  | decodeError (msg : String)        -- JSON decode failure
  | invalidLoad (label : String)      -- `invalid load value: %s`
  | writeError (msg : String)         -- propagated writer error
  | ctxError (msg : String)           -- propagated `ctx.Err()`
  deriving DecidableEq, Repr

/-- The observable steps of one `run` invocation, in program order. -/
inductive RunEvent where
  | doRequest                  -- `cl.Do(req)` is invoked
  | captureTs (t : Nat)        -- `ts := time.Now()`
  | statusCheck (code : Nat)   -- the `resp.StatusCode != http.StatusOK` test
  | decodeOk                   -- the body decode succeeded
  | emit (e : EmitEvent)       -- one writer call
  deriving DecidableEq, Repr

deriving instance DecidableEq for Except

/-- What one `run` invocation produced: its event trace, the points whose
submission succeeded (in submission order), and its return value. -/
structure RunResult where
  trace : List RunEvent
  submitted : List Point
  result : Except RunError Unit
  deriving DecidableEq, Repr

/-- The per-record loop of `run`. `i` is the index of the current record
in the feed (for the context check ending every iteration), `w` counts
writer calls made so far (indexing the backend's per-call outcome). -/
def runLoop (ic : InstanceConfig) (writer : Nat → Point → EmitEvent × Option String)
    (ctxErr : Nat → Option String) (ts : Nat) :
    List APMData → Nat → Nat → List RunEvent × List Point × Except RunError Unit
  | [], _, _ => ([], [], .ok ())
  | d :: rest, i, w =>
    if lockerFilter ic.placeIDs d.placeID then
      match loadMap d.load with
      | none => ([], [], .error (.invalidLoad d.load))
      | some loadVal =>
        let p := mkPoint ic d loadVal ts
        match (writer w p).2 with
        | some m => ([.emit (writer w p).1], [], .error (.writeError m))
        | none =>
          match ctxErr i with
          | some m => ([.emit (writer w p).1], [p], .error (.ctxError m))
          | none =>
            let res := runLoop ic writer ctxErr ts rest (i + 1) (w + 1)
            (.emit (writer w p).1 :: res.1, p :: res.2.1, res.2.2)
    else
      match ctxErr i with
      | some m => ([], [], .error (.ctxError m))
      | none => runLoop ic writer ctxErr ts rest (i + 1) w

/-- `run(ctx, ic)` (main.go): build the request, let the retrying client
execute it, take the timestamp, check the final status, decode the body,
then filter/classify/emit each record under the per-iteration context
check. -/
def run (ic : InstanceConfig) (env : RunEnv) : RunResult :=
  match env.reqErr with
  | some m => { trace := [], submitted := [], result := .error (.requestError m) }
  | none =>
    match env.fetch with
    | .doErr m =>
        { trace := [.doRequest], submitted := [], result := .error (.requestError m) }
    | .resp status body =>
      if status = 200 then
        match body with
        | .error m =>
            { trace := [.doRequest, .captureTs env.now, .statusCheck status],
              submitted := [], result := .error (.decodeError m) }
        | .ok records =>
          let res := runLoop ic (GetWriter ic env.backendErr) env.ctxErr env.now records 0 0
          { trace := [.doRequest, .captureTs env.now, .statusCheck status, .decodeOk] ++ res.1,
            submitted := res.2.1, result := res.2.2 }
      else
        { trace := [.doRequest, .captureTs env.now, .statusCheck status],
          submitted := [], result := .error (.unexpectedStatus status) }

/-- The points a fully successful cycle derives from a feed: one per
record passing the locker filter, classified by `loadMap`. -/
def cyclePoints (ic : InstanceConfig) (ts : Nat) (l : List APMData) : List Point :=
  (l.filter (fun d => lockerFilter ic.placeIDs d.placeID)).filterMap
    (fun d => (loadMap d.load).map (fun loadVal => mkPoint ic d loadVal ts))

/-- Whether an event is the timestamp capture. -/
def isCaptureEvent : RunEvent → Bool
  | .captureTs _ => true
  | _ => false

/-- Whether an event is the invocation of the retrying client. -/
def isDoEvent : RunEvent → Bool
  | .doRequest => true
  | _ => false

/-- Number of timestamp captures that occur strictly after the successful
decode in a trace. -/
def capturesAfterDecode (tr : List RunEvent) : Nat :=
  (((tr.dropWhile (fun e => e ≠ .decodeOk)).drop 1).filter isCaptureEvent).length

/-! ## Scheduler (`invoke`, `safeInvoke`, `daemon`, `main`) -/

/-- How one invocation of the collection cycle can end, seen from the
scheduler: a nil error, a non-nil error, or a runtime panic escaping the
cycle body. -/
inductive CycleOutcome where
  | ok
  | fail (msg : String)
  | panicked (msg : String)
  deriving DecidableEq, Repr

/-- A Go computation that either returns normally or is unwinding a
panic. -/
inductive GoResult (α : Type) where
  | ret (a : α)
  | panicked (msg : String)
  deriving DecidableEq, Repr

/-- `invoke(ic)` seen from its caller: it forwards `run`'s error value,
and a panic raised inside the cycle unwinds through it (it installs no
recover of its own). -/
def invokeModel : CycleOutcome → GoResult (Option String)
  | .ok => .ret none
  | .fail m => .ret (some m)
  | .panicked m => .panicked m

/-- Scheduler-level log entries. -/
inductive DaemonLog where
  | tickLog              -- `log.Println("Tick!")`
  | errLog (msg : String)    -- `log.Println("Error while running collection: ", err)`
  | panicLog (msg : String)  -- `log.Println("PANIC! ", r, " (recovered)")`
  deriving DecidableEq, Repr

/-- `safeInvoke(ic)`: run `invoke` under a deferred `recover`; a panic is
caught and logged, a returned error is logged, and in every case the
function returns normally. -/
def safeInvoke (o : CycleOutcome) : GoResult (List DaemonLog) :=
  match invokeModel o with
  | .panicked m => .ret [.panicLog m]
  | .ret (some e) => .ret [.errLog e]
  | .ret none => .ret []

/-- The `for range ticker.C` body of `daemon`, observed for a finite
prefix of ticks: each tick logs and calls `safeInvoke` with that tick's
cycle outcome; a panic escaping `safeInvoke` would abort the loop (and
the process). Returns the number of cycle invocations made and the log. -/
def daemonLoop : List CycleOutcome → GoResult (Nat × List DaemonLog)
  | [] => .ret (0, [])
  | o :: rest =>
    match safeInvoke o with
    | .panicked m => .panicked m
    | .ret l =>
      match daemonLoop rest with
      | .panicked m => .panicked m
      | .ret (n, ls) => .ret (n + 1, (DaemonLog.tickLog :: l) ++ ls)

/-- The daemon branch of `main`: one immediate `safeInvoke`, then
`daemon`'s ticker loop. `first` is the startup cycle's outcome, `ticks`
the outcomes of the observed ticks. -/
def mainDaemonMode (first : CycleOutcome) (ticks : List CycleOutcome) :
    GoResult (Nat × List DaemonLog) :=
  match safeInvoke first with
  | .panicked m => .panicked m
  | .ret l0 =>
    match daemonLoop ticks with
    | .panicked m => .panicked m
    | .ret (n, ls) => .ret (n + 1, l0 ++ ls)

/-- How the process ends. -/
inductive ProcExit where
  | success            -- `main` returns normally
  | crash (msg : String)   -- an unrecovered panic terminates the process abnormally
  deriving DecidableEq, Repr

/-- The one-shot branch of `main`: call `invoke` once with no recover;
`panic(err)` on a non-nil error, fall through to a normal return
otherwise. A panic from inside the cycle also unwinds uncaught. -/
def mainOneShot (o : CycleOutcome) : ProcExit :=
  match invokeModel o with
  | .panicked m => .crash m
  | .ret (some e) => .crash e
  | .ret none => .success

/-- Whether the daemon is still alive (not unwinding a panic) after the
observed prefix. -/
def daemonAlive : GoResult (Nat × List DaemonLog) → Bool
  | .ret _ => true
  | .panicked _ => false

/-- Number of cycle invocations the daemon made in the observed prefix. -/
def daemonCycles : GoResult (Nat × List DaemonLog) → Nat
  | .ret (n, _) => n
  | .panicked _ => 0

/-- The log the daemon produced in the observed prefix. -/
def daemonLogs : GoResult (Nat × List DaemonLog) → List DaemonLog
  | .ret (_, ls) => ls
  | .panicked _ => []

/-! ## Concrete fixtures used by witnesses and counterexamples -/

/-- A dry-run configuration interested in place 1. -/
def icDry : InstanceConfig :=
  { timeout := 60, placeIDs := [1], influxClientSet := false, influxOrg := "",
    influxBucket := "", influxMeasurement := "foxpost", dryRun := true }

/-- A qualifying feed record. -/
def rec1 : APMData :=
  { placeID := 1, operatorID := "A", name := "X",
    geoLat := ⟨47⟩, geoLng := ⟨19⟩, load := "overloaded" }

/-- A non-qualifying feed record carrying an unmapped load label. -/
def recBad : APMData :=
  { placeID := 5, operatorID := "B", name := "Y",
    geoLat := ⟨48⟩, geoLng := ⟨20⟩, load := "garbage" }

/-- An environment where the fetch yields HTTP 200 with the given feed and
neither the backend nor the context ever reports an error. -/
def envOk (records : List APMData) : RunEnv :=
  { reqErr := none, fetch := .resp 200 (.ok records), now := 1111,
    backendErr := fun _ => none, ctxErr := fun _ => none }

/-! ## Claim C1: the load classifier -/

/-- C1: the Load Classifier succeeds exactly on the four labels `""`,
`"normal loaded"`, `"medium loaded"`, `"overloaded"`, returning 10, 10,
70, 100 respectively by exact string match, and fails on every other
label. -/
theorem loadMap_classifies_exactly :
    loadMap "" = some 10 ∧ loadMap "normal loaded" = some 10 ∧
    loadMap "medium loaded" = some 70 ∧ loadMap "overloaded" = some 100 ∧
    ∀ s : String, s ≠ "" → s ≠ "normal loaded" → s ≠ "medium loaded" →
      s ≠ "overloaded" → loadMap s = none := by
  refine ⟨rfl, rfl, rfl, rfl, ?_⟩
  intro s h1 h2 h3 h4
  simp only [loadMap, loadMapEntries, List.lookup]
  have b1 : (s == "") = false := beq_eq_false_iff_ne.mpr h1
  have b2 : (s == "normal loaded") = false := beq_eq_false_iff_ne.mpr h2
  have b3 : (s == "medium loaded") = false := beq_eq_false_iff_ne.mpr h3
  have b4 : (s == "overloaded") = false := beq_eq_false_iff_ne.mpr h4
  simp [b1, b2, b3, b4]

/-- C1 witness: the classifier at the four labels and at a label outside
the vocabulary. -/
theorem loadMap_classifies_exactly_witness :
    loadMap "overloaded" = some 100 ∧ loadMap "slightly loaded" = none :=
  ⟨loadMap_classifies_exactly.2.2.2.1,
   loadMap_classifies_exactly.2.2.2.2 "slightly loaded"
     (by decide) (by decide) (by decide) (by decide)⟩

/-! ## Loop lemmas -/

/-- The per-record loop emits no timestamp-capture event. -/
lemma runLoop_no_capture (ic : InstanceConfig)
    (writer : Nat → Point → EmitEvent × Option String)
    (ctxErr : Nat → Option String) (ts : Nat) :
    ∀ (l : List APMData) (i w : Nat),
      (runLoop ic writer ctxErr ts l i w).1.filter isCaptureEvent = [] := by
  intro l
  induction l with
  | nil => intro i w; simp [runLoop]
  | cons d rest ih =>
    intro i w
    simp only [runLoop]
    by_cases hf : lockerFilter ic.placeIDs d.placeID
    · simp only [hf, if_true]
      cases hl : loadMap d.load with
      | none => simp [isCaptureEvent]
      | some loadVal =>
        cases hw : (writer w (mkPoint ic d loadVal ts)).2 with
        | some m => simp [hw, isCaptureEvent]
        | none =>
          cases hc : ctxErr i with
          | some m => simp [hw, hc, isCaptureEvent]
          | none => simp [hw, hc, isCaptureEvent, ih]
    · simp only [hf, if_false]
      cases hc : ctxErr i with
      | some m => simp [hc, isCaptureEvent]
      | none => simp [hc, ih]

/-- Every point the loop submits carries the cycle timestamp `ts`. -/
lemma runLoop_submitted_time (ic : InstanceConfig)
    (writer : Nat → Point → EmitEvent × Option String)
    (ctxErr : Nat → Option String) (ts : Nat) :
    ∀ (l : List APMData) (i w : Nat) (p : Point),
      p ∈ (runLoop ic writer ctxErr ts l i w).2.1 → p.time = ts := by
  intro l
  induction l with
  | nil => intro i w p hp; simp [runLoop] at hp
  | cons d rest ih =>
    intro i w p hp
    simp only [runLoop] at hp
    by_cases hf : lockerFilter ic.placeIDs d.placeID
    · simp only [hf, if_true] at hp
      cases hl : loadMap d.load with
      | none => simp [hl] at hp
      | some loadVal =>
        simp only [hl] at hp
        cases hw : (writer w (mkPoint ic d loadVal ts)).2 with
        | some m => simp [hw] at hp
        | none =>
          simp only [hw] at hp
          cases hc : ctxErr i with
          | some m =>
            simp [hc] at hp
            subst hp; rfl
          | none =>
            simp only [hc, List.mem_cons] at hp
            cases hp with
            | inl h => subst h; rfl
            | inr h => exact ih (i + 1) (w + 1) p h
    · simp only [hf, if_false] at hp
      cases hc : ctxErr i with
      | some m => simp [hc] at hp
      | none =>
        simp only [hc] at hp
        exact ih (i + 1) w p hp

/-! ## Claim C2: the shared cycle timestamp -/

/-- C2 (amended): the shared timestamp is captured exactly once per
cycle, immediately after the retrying client hands back its final
response — before the status check and before the body decode — and
every point submitted in the cycle carries that same timestamp. -/
theorem run_timestamp_once_after_request :
    ∀ (ic : InstanceConfig) (env : RunEnv) (status : Nat)
      (body : Except String (List APMData)),
      env.reqErr = none → env.fetch = .resp status body →
      (run ic env).trace.take 2 = [.doRequest, .captureTs env.now] ∧
      ((run ic env).trace.filter isCaptureEvent).length = 1 ∧
      ∀ p ∈ (run ic env).submitted, p.time = env.now := by
  intro ic env status body hre hf
  simp only [run, hre, hf]
  by_cases hs : status = 200
  · subst hs
    cases body with
    | error m => simp [isCaptureEvent]
    | ok records =>
      refine ⟨by simp, ?_, ?_⟩
      · simp [List.filter_append, isCaptureEvent, runLoop_no_capture]
      · intro p hp
        exact runLoop_submitted_time ic _ env.ctxErr env.now records 0 0 p (by simpa using hp)
  · simp [hs, isCaptureEvent]

/-- C2 counterexample: in a fully successful cycle (HTTP 200, body
decoded, one point emitted) the single timestamp capture does not occur
after the successful decode — it precedes it — refuting the claim that
the timestamp is captured immediately after the body is decoded. -/
theorem run_capture_not_after_decode_cx :
    ((run icDry (envOk [rec1])).trace.filter isCaptureEvent).length = 1 ∧
    RunEvent.decodeOk ∈ (run icDry (envOk [rec1])).trace ∧
    (run icDry (envOk [rec1])).result = .ok () ∧
    (run icDry (envOk [rec1])).submitted ≠ [] ∧
    capturesAfterDecode (run icDry (envOk [rec1])).trace = 0 := by decide

/-- If the loop finished successfully, every record in the set of
interest had a recognized load label. -/
lemma runLoop_ok_labels (ic : InstanceConfig)
    (writer : Nat → Point → EmitEvent × Option String)
    (ctxErr : Nat → Option String) (ts : Nat) :
    ∀ (l : List APMData) (i w : Nat),
      (runLoop ic writer ctxErr ts l i w).2.2 = .ok () →
      ∀ d ∈ l, lockerFilter ic.placeIDs d.placeID = true → (loadMap d.load).isSome := by
  intro l
  induction l with
  | nil => intro i w _ d hd; simp at hd
  | cons d0 rest ih =>
    intro i w hok d hd
    simp only [runLoop] at hok
    by_cases hf : lockerFilter ic.placeIDs d0.placeID
    · simp only [hf, if_true] at hok
      cases hl : loadMap d0.load with
      | none => simp [hl] at hok
      | some lv =>
        simp only [hl] at hok
        cases hw : (writer w (mkPoint ic d0 lv ts)).2 with
        | some m => simp [hw] at hok
        | none =>
          simp only [hw] at hok
          cases hc : ctxErr i with
          | some m => simp [hc] at hok
          | none =>
            simp only [hc] at hok
            rcases List.mem_cons.mp hd with h | h
            · subst h; intro _; simp [hl]
            · exact ih (i + 1) (w + 1) hok d h
    · simp only [hf, if_false] at hok
      cases hc : ctxErr i with
      | some m => simp [hc] at hok
      | none =>
        simp only [hc] at hok
        rcases List.mem_cons.mp hd with h | h
        · subst h; intro hq; exact absurd hq hf
        · exact ih (i + 1) w hok d h

/-- When the writer and the context never fail, the loop stops at the
first qualifying record with an unmapped label, returning the
invalid-load error, and the points submitted for the qualifying records
before it are exactly the retained output. -/
lemma runLoop_fail_at_first_bad (ic : InstanceConfig)
    (writer : Nat → Point → EmitEvent × Option String)
    (ctxErr : Nat → Option String) (ts : Nat)
    (hw : ∀ k p, (writer k p).2 = none) (hc : ∀ k, ctxErr k = none)
    (bad : APMData) (post : List APMData)
    (hbf : lockerFilter ic.placeIDs bad.placeID = true)
    (hbl : loadMap bad.load = none) :
    ∀ (pre : List APMData) (i w : Nat),
      (∀ d ∈ pre, lockerFilter ic.placeIDs d.placeID = true → (loadMap d.load).isSome) →
      (runLoop ic writer ctxErr ts (pre ++ bad :: post) i w).2.2
          = .error (.invalidLoad bad.load) ∧
      (runLoop ic writer ctxErr ts (pre ++ bad :: post) i w).2.1
          = cyclePoints ic ts pre := by
  intro pre
  induction pre with
  | nil =>
    intro i w _
    simp [runLoop, hbf, hbl, cyclePoints]
  | cons d rest ih =>
    intro i w hpre
    have hrest : ∀ d ∈ rest, lockerFilter ic.placeIDs d.placeID = true →
        (loadMap d.load).isSome :=
      fun d hd => hpre d (List.mem_cons_of_mem _ hd)
    simp only [List.cons_append, runLoop]
    by_cases hf : lockerFilter ic.placeIDs d.placeID
    · have hsome := hpre d (List.mem_cons_self d rest) hf
      cases hl : loadMap d.load with
      | none => rw [hl] at hsome; simp at hsome
      | some lv =>
        have hih := ih (i + 1) (w + 1) hrest
        simp only [hf, if_true, hl, hw, hc]
        refine ⟨hih.1, ?_⟩
        simp [cyclePoints, List.filter_cons, hf, hl] at hih ⊢
        exact hih.2
    · have hih := ih (i + 1) w hrest
      simp only [hf, if_false, hc]
      refine ⟨hih.1, ?_⟩
      simp [cyclePoints, List.filter_cons, hf] at hih ⊢
      exact hih.2

/-- In dry-run mode the writer never fails; in real mode it fails exactly
when the backend does. -/
lemma GetWriter_snd_none (ic : InstanceConfig) (be : Nat → Option String)
    (h : ∀ k, be k = none) : ∀ k p, (GetWriter ic be k p).2 = none := by
  intro k p
  by_cases hd : ic.dryRun <;> simp [GetWriter, hd, h]

/-! ## Claim C3: unrecognized labels and cycle failure -/

/-- C3 counterexample: a feed whose only record carries an unrecognized
load label, but whose place id is outside the configured set — the cycle
succeeds, refuting "for every feed containing at least one record with
an out-of-vocabulary label the whole cycle fails". -/
theorem unrecognized_label_outside_set_cx :
    loadMap recBad.load = none ∧ recBad ∈ [recBad] ∧
    (run icDry (envOk [recBad])).result = .ok () ∧
    (run icDry (envOk [recBad])).submitted = [] := by decide

/-- C3 (amended): an unrecognized load label on a record whose place id
is in the configured set fails the whole cycle, wherever the record
occurs; labels of non-configured records are never inspected. When no
write error or cancellation strikes first, the cycle ends with exactly
the invalid-load error of the first such record, and the points already
submitted for the qualifying records before it are retained, not
undone. -/
theorem unrecognized_label_in_set_fails_cycle :
    (∀ (ic : InstanceConfig) (env : RunEnv) (records : List APMData) (bad : APMData),
      env.reqErr = none → env.fetch = .resp 200 (.ok records) → bad ∈ records →
      lockerFilter ic.placeIDs bad.placeID = true → loadMap bad.load = none →
      (run ic env).result ≠ .ok ()) ∧
    (∀ (ic : InstanceConfig) (env : RunEnv) (pre post : List APMData) (bad : APMData),
      env.reqErr = none → env.fetch = .resp 200 (.ok (pre ++ bad :: post)) →
      (∀ k, env.backendErr k = none) → (∀ k, env.ctxErr k = none) →
      (∀ d ∈ pre, lockerFilter ic.placeIDs d.placeID = true → (loadMap d.load).isSome) →
      lockerFilter ic.placeIDs bad.placeID = true → loadMap bad.load = none →
      (run ic env).result = .error (.invalidLoad bad.load) ∧
      (run ic env).submitted = cyclePoints ic env.now pre) := by
  constructor
  · intro ic env records bad hre hf hmem hbf hbl hok
    simp [run, hre, hf] at hok
    have := runLoop_ok_labels ic (GetWriter ic env.backendErr) env.ctxErr env.now
      records 0 0 hok bad hmem hbf
    rw [hbl] at this
    simp at this
  · intro ic env pre post bad hre hf hbe hce hpre hbf hbl
    have hwn : ∀ k p, (GetWriter ic env.backendErr k p).2 = none :=
      GetWriter_snd_none ic env.backendErr hbe
    have h := runLoop_fail_at_first_bad ic (GetWriter ic env.backendErr) env.ctxErr
      env.now hwn hce bad post hbf hbl pre 0 0 hpre
    simp only [run, hre, hf, if_true]
    simpa using h

/-- A qualifying record (place id 1) with an unmapped load label. -/
def recBadQ : APMData :=
  { placeID := 1, operatorID := "C", name := "Z",
    geoLat := ⟨49⟩, geoLng := ⟨21⟩, load := "mega loaded" }

/-- C2 witness: the amended timestamp property at a concrete cycle. -/
theorem run_timestamp_once_after_request_witness :
    (run icDry (envOk [rec1])).trace.take 2
        = [.doRequest, .captureTs (envOk [rec1]).now] ∧
    ((run icDry (envOk [rec1])).trace.filter isCaptureEvent).length = 1 ∧
    ∀ p ∈ (run icDry (envOk [rec1])).submitted, p.time = (envOk [rec1]).now :=
  run_timestamp_once_after_request icDry (envOk [rec1]) 200 (.ok [rec1]) rfl rfl

/-- C3 witness: a good qualifying record followed by a qualifying record
with an unmapped label — the cycle fails with the invalid-load error and
the first record's point stays submitted. -/
theorem unrecognized_label_in_set_fails_cycle_witness :
    (run icDry (envOk [rec1, recBadQ])).result = .error (.invalidLoad recBadQ.load) ∧
    (run icDry (envOk [rec1, recBadQ])).submitted = cyclePoints icDry 1111 [rec1] :=
  unrecognized_label_in_set_fails_cycle.2 icDry (envOk [rec1, recBadQ]) [rec1] [] recBadQ
    rfl rfl (fun _ => rfl) (fun _ => rfl) (by decide) (by decide) (by decide)

/-- A loop that finished successfully submitted exactly one point per
record passing the locker filter. -/
lemma runLoop_ok_length (ic : InstanceConfig)
    (writer : Nat → Point → EmitEvent × Option String)
    (ctxErr : Nat → Option String) (ts : Nat) :
    ∀ (l : List APMData) (i w : Nat),
      (runLoop ic writer ctxErr ts l i w).2.2 = .ok () →
      (runLoop ic writer ctxErr ts l i w).2.1.length
        = (l.filter (fun d => lockerFilter ic.placeIDs d.placeID)).length := by
  intro l
  induction l with
  | nil => intro i w _; simp [runLoop]
  | cons d rest ih =>
    intro i w hok
    simp only [runLoop] at hok ⊢
    by_cases hf : lockerFilter ic.placeIDs d.placeID
    · simp only [hf, if_true] at hok ⊢
      cases hl : loadMap d.load with
      | none => simp [hl] at hok
      | some lv =>
        simp only [hl] at hok ⊢
        cases hw : (writer w (mkPoint ic d lv ts)).2 with
        | some m => simp [hw] at hok
        | none =>
          simp only [hw] at hok ⊢
          cases hc : ctxErr i with
          | some m => simp [hc] at hok
          | none =>
            simp only [hc] at hok ⊢
            simp [List.filter_cons, hf, ih (i + 1) (w + 1) hok]
    · simp only [hf, if_false] at hok ⊢
      cases hc : ctxErr i with
      | some m => simp [hc] at hok
      | none =>
        simp only [hc] at hok ⊢
        simp [List.filter_cons, hf, ih (i + 1) w hok]

/-! ## Claim C4: one point per qualifying record, shared timestamp -/

/-- C4: when the fetch yields N records of which K pass the locker filter
and all K have recognized labels, a successful cycle submits exactly K
points, each carrying the shared cycle timestamp. -/
theorem successful_cycle_emits_per_qualifying_record :
    ∀ (ic : InstanceConfig) (env : RunEnv) (records : List APMData),
      env.reqErr = none → env.fetch = .resp 200 (.ok records) →
      (∀ d ∈ records, lockerFilter ic.placeIDs d.placeID = true →
        (loadMap d.load).isSome) →
      (run ic env).result = .ok () →
      (run ic env).submitted.length
        = (records.filter (fun d => lockerFilter ic.placeIDs d.placeID)).length ∧
      ∀ p ∈ (run ic env).submitted, p.time = env.now := by
  intro ic env records hre hf _ hok
  simp [run, hre, hf] at hok ⊢
  refine ⟨?_, ?_⟩
  · simpa using runLoop_ok_length ic (GetWriter ic env.backendErr) env.ctxErr env.now
      records 0 0 hok
  · intro p hp
    exact runLoop_submitted_time ic (GetWriter ic env.backendErr) env.ctxErr env.now
      records 0 0 p (by simpa using hp)

/-- C4 witness: a two-record feed with one qualifying record yields
exactly one submitted point with the cycle timestamp. -/
theorem successful_cycle_emits_per_qualifying_record_witness :
    (run icDry (envOk [rec1, recBad])).submitted.length
      = (([rec1, recBad]).filter
          (fun d => lockerFilter icDry.placeIDs d.placeID)).length ∧
    ∀ p ∈ (run icDry (envOk [rec1, recBad])).submitted, p.time = (envOk [rec1, recBad]).now :=
  successful_cycle_emits_per_qualifying_record icDry (envOk [rec1, recBad]) [rec1, recBad]
    rfl rfl (by decide) (by decide)

/-! ## Claims C5 and C7: scheduler behavior -/

/-- `safeInvoke` always returns normally, logging any error and any
recovered panic of the cycle. -/
lemma safeInvoke_logs :
    ∀ o : CycleOutcome, ∃ l : List DaemonLog,
      safeInvoke o = .ret l ∧
      ∀ m : String, (o = .fail m → DaemonLog.errLog m ∈ l) ∧
        (o = .panicked m → DaemonLog.panicLog m ∈ l) := by
  intro o
  cases o with
  | ok => exact ⟨[], rfl, fun m => ⟨fun h => (nomatch h), fun h => nomatch h⟩⟩
  | fail m0 =>
    refine ⟨[.errLog m0], rfl, fun m => ⟨fun h => ?_, fun h => nomatch h⟩⟩
    cases h
    simp
  | panicked m0 =>
    refine ⟨[.panicLog m0], rfl, fun m => ⟨fun h => (nomatch h), fun h => ?_⟩⟩
    cases h
    simp

/-- For any finite prefix of ticks the daemon loop returns normally,
having invoked the cycle exactly once per tick, with every failure and
every recovered panic logged. -/
lemma daemonLoop_ret :
    ∀ ticks : List CycleOutcome, ∃ ls : List DaemonLog,
      daemonLoop ticks = .ret (ticks.length, ls) ∧
      ∀ o ∈ ticks, ∀ m : String,
        (o = .fail m → DaemonLog.errLog m ∈ ls) ∧
        (o = .panicked m → DaemonLog.panicLog m ∈ ls) := by
  intro ticks
  induction ticks with
  | nil => exact ⟨[], rfl, by simp⟩
  | cons o rest ih =>
    obtain ⟨ls, hls, hmem⟩ := ih
    obtain ⟨l0, hl0, hm0⟩ := safeInvoke_logs o
    refine ⟨(DaemonLog.tickLog :: l0) ++ ls, ?_, ?_⟩
    · simp [daemonLoop, hl0, hls]
    · intro o2 ho2 m
      rcases List.mem_cons.mp ho2 with h | h
      · subst h
        refine ⟨fun he => ?_, fun hp => ?_⟩
        · exact List.mem_append.mpr (Or.inl (List.mem_cons_of_mem _ ((hm0 m).1 he)))
        · exact List.mem_append.mpr (Or.inl (List.mem_cons_of_mem _ ((hm0 m).2 hp)))
      · refine ⟨fun he => ?_, fun hp => ?_⟩
        · exact List.mem_append.mpr (Or.inr ((hmem o2 h m).1 he))
        · exact List.mem_append.mpr (Or.inr ((hmem o2 h m).2 hp))

/-- C5: in daemon mode the cycle runs once immediately and once per tick
(so `ticks.length + 1` invocations over any observed prefix); every
cycle error and every panic raised inside a cycle is caught at the
scheduler boundary and logged, and the process stays alive. -/
theorem daemon_runs_and_survives :
    ∀ (first : CycleOutcome) (ticks : List CycleOutcome),
      daemonAlive (mainDaemonMode first ticks) = true ∧
      daemonCycles (mainDaemonMode first ticks) = ticks.length + 1 ∧
      ∀ o ∈ first :: ticks, ∀ m : String,
        (o = .fail m → DaemonLog.errLog m ∈ daemonLogs (mainDaemonMode first ticks)) ∧
        (o = .panicked m →
          DaemonLog.panicLog m ∈ daemonLogs (mainDaemonMode first ticks)) := by
  intro first ticks
  obtain ⟨l0, hl0, hm0⟩ := safeInvoke_logs first
  obtain ⟨ls, hls, hmem⟩ := daemonLoop_ret ticks
  simp only [mainDaemonMode, hl0, hls]
  refine ⟨rfl, rfl, ?_⟩
  intro o ho m
  rcases List.mem_cons.mp ho with h | h
  · subst h
    refine ⟨fun he => ?_, fun hp => ?_⟩
    · exact List.mem_append.mpr (Or.inl ((hm0 m).1 he))
    · exact List.mem_append.mpr (Or.inl ((hm0 m).2 hp))
  · refine ⟨fun he => ?_, fun hp => ?_⟩
    · exact List.mem_append.mpr (Or.inr ((hmem o h m).1 he))
    · exact List.mem_append.mpr (Or.inr ((hmem o h m).2 hp))

/-- C5 witness: a failing startup cycle, a panicking first tick and a
clean second tick — three invocations, both faults logged, daemon
alive. -/
theorem daemon_runs_and_survives_witness :
    daemonAlive (mainDaemonMode (.fail "e") [.panicked "p", .ok]) = true ∧
    daemonCycles (mainDaemonMode (.fail "e") [.panicked "p", .ok]) = 3 ∧
    DaemonLog.errLog "e" ∈ daemonLogs (mainDaemonMode (.fail "e") [.panicked "p", .ok]) ∧
    DaemonLog.panicLog "p" ∈ daemonLogs (mainDaemonMode (.fail "e") [.panicked "p", .ok]) := by
  have h := daemon_runs_and_survives (.fail "e") [.panicked "p", .ok]
  exact ⟨h.1, h.2.1, (h.2.2 (.fail "e") (by simp) "e").1 rfl,
    (h.2.2 (.panicked "p") (by simp) "p").2 rfl⟩

/-- C7: in one-shot mode the single cycle's error (and any panic inside
it) is fatal — the process crashes; on a clean cycle the process exits
normally, and a normal exit happens only on a clean cycle. -/
theorem oneShot_failure_is_fatal :
    (∀ m, mainOneShot (.fail m) = .crash m) ∧
    (∀ m, mainOneShot (.panicked m) = .crash m) ∧
    mainOneShot .ok = .success ∧
    (∀ o, mainOneShot o = .success → o = .ok) := by
  refine ⟨fun m => rfl, fun m => rfl, rfl, ?_⟩
  intro o h
  cases o with
  | ok => rfl
  | fail m => exact nomatch h
  | panicked m => exact nomatch h

/-- C7 witness: a concrete failing cycle crashes the process, a clean one
exits normally. -/
theorem oneShot_failure_is_fatal_witness :
    mainOneShot (.fail "http 500") = .crash "http 500" ∧ CycleOutcome.ok = .ok :=
  ⟨oneShot_failure_is_fatal.1 "http 500", oneShot_failure_is_fatal.2.2.2 .ok rfl⟩

/-! ## Claim C6: fetcher status check and decode -/

/-- C6: whatever final response the retrying client hands back with a
status other than 200 makes the fetch fail with the unexpected-status
error — with the client invoked exactly once, so a bad status triggers no
retry at this layer; on a 200 response a body-decode failure is a fatal
fetch error; and the cycle succeeds only when the body decoded into
records. -/
theorem fetcher_status_and_decode :
    (∀ (ic : InstanceConfig) (env : RunEnv) (status : Nat)
       (body : Except String (List APMData)),
      env.reqErr = none → env.fetch = .resp status body → status ≠ 200 →
      (run ic env).result = .error (.unexpectedStatus status) ∧
      ((run ic env).trace.filter isDoEvent).length = 1 ∧
      (run ic env).submitted = []) ∧
    (∀ (ic : InstanceConfig) (env : RunEnv) (m : String),
      env.reqErr = none → env.fetch = .resp 200 (.error m) →
      (run ic env).result = .error (.decodeError m)) ∧
    (∀ (ic : InstanceConfig) (env : RunEnv),
      (run ic env).result = .ok () →
      env.reqErr = none ∧ ∃ records, env.fetch = .resp 200 (.ok records)) := by
  refine ⟨?_, ?_, ?_⟩
  · intro ic env status body hre hf hs
    simp [run, hre, hf, hs, isDoEvent, List.filter]
  · intro ic env m hre hf
    simp [run, hre, hf]
  · intro ic env hok
    cases hre : env.reqErr with
    | some m => simp [run, hre] at hok
    | none =>
      refine ⟨rfl, ?_⟩
      cases hf : env.fetch with
      | doErr m => simp [run, hre, hf] at hok
      | resp status body =>
        by_cases hs : status = 200
        · subst hs
          cases body with
          | error m => simp [run, hre, hf] at hok
          | ok records => exact ⟨records, rfl⟩
        · simp [run, hre, hf, hs] at hok

/-- An environment whose final response is an HTTP 500. -/
def env500 : RunEnv :=
  { reqErr := none, fetch := .resp 500 (.error "server error page"), now := 7,
    backendErr := fun _ => none, ctxErr := fun _ => none }

/-- C6 witness: a final 500 response fails with the unexpected-status
error after a single client invocation, with nothing submitted. -/
theorem fetcher_status_and_decode_witness :
    (run icDry env500).result = .error (.unexpectedStatus 500) ∧
    ((run icDry env500).trace.filter isDoEvent).length = 1 ∧
    (run icDry env500).submitted = [] :=
  fetcher_status_and_decode.1 icDry env500 500 (.error "server error page")
    rfl rfl (by decide)

/-! ## Claim C8: dry-run mode -/

/-- C8: with the dry-run flag set, startup performs no backend client
setup and no health check — whatever the environment holds, backend
configuration present or not — and the writer only logs the point it is
given, never performs a backend write and never returns an error. -/
theorem dryRun_skips_backend :
    (∀ (e : GoEnv) (s : String) (ids : List Nat),
      e.dryRunFlag = true → e.vars "FOXPOST_PLACE_IDS" = some s →
      parsePlaceIDs s = .ok ids →
      (loadConfig e).1 = [] ∧
      (loadConfig e).2 = .ok { timeout := e.timeoutVal, placeIDs := ids,
                               influxClientSet := false, influxOrg := "",
                               influxBucket := "",
                               influxMeasurement :=
                                 envString e "INFLUX_MEASUREMENT" "foxpost",
                               dryRun := true }) ∧
    (∀ (ic : InstanceConfig) (be : Nat → Option String) (k : Nat) (p : Point),
      ic.dryRun = true → GetWriter ic be k p = (.dryRunLog p, none)) := by
  constructor
  · intro e s ids hd hv hp
    simp [loadConfig, stringOrPanic, hv, hp, hd]
  · intro ic be k p hd
    simp [GetWriter, hd]

/-- An environment with the dry-run flag set and no backend settings at
all. -/
def envDry : GoEnv :=
  { vars := fun n => if n = "FOXPOST_PLACE_IDS" then some "1" else none,
    dryRunFlag := true, timeoutVal := 60, healthOk := false }

/-- C8 witness: dry-run startup with no backend configuration performs no
backend action and succeeds, and the dry-run writer only logs, even when
the backend would refuse the write. -/
theorem dryRun_skips_backend_witness :
    (loadConfig envDry).1 = [] ∧
    (loadConfig envDry).2 = .ok { timeout := 60, placeIDs := [1],
                                  influxClientSet := false, influxOrg := "",
                                  influxBucket := "",
                                  influxMeasurement := "foxpost",
                                  dryRun := true } ∧
    GetWriter icDry (fun _ => some "write refused") 0 (mkPoint icDry rec1 100 1111)
      = (.dryRunLog (mkPoint icDry rec1 100 1111), none) := by
  have h1 := dryRun_skips_backend.1 envDry "1" [1] rfl rfl (by decide)
  exact ⟨h1.1, h1.2.trans (by decide), dryRun_skips_backend.2 icDry _ 0 _ rfl⟩

/-! ## Claim C9: the locker filter is set membership -/

/-- The filter test is exactly list membership. -/
lemma lockerFilter_iff_mem (S : List Nat) (p : Nat) :
    lockerFilter S p = true ↔ p ∈ S := by
  simp [lockerFilter, List.contains, List.elem_iff]

/-- Two id lists agreeing as sets drive the loop identically (the rest of
the configuration being equal). -/
lemma runLoop_filter_congr (ic ic' : InstanceConfig)
    (writer : Nat → Point → EmitEvent × Option String)
    (ctxErr : Nat → Option String) (ts : Nat)
    (hmeas : ic'.influxMeasurement = ic.influxMeasurement)
    (hfil : ∀ p, lockerFilter ic'.placeIDs p = lockerFilter ic.placeIDs p) :
    ∀ l i w, runLoop ic' writer ctxErr ts l i w = runLoop ic writer ctxErr ts l i w := by
  intro l
  induction l with
  | nil => intro i w; rfl
  | cons d rest ih =>
    intro i w
    have hmk : ∀ lv, mkPoint ic' d lv ts = mkPoint ic d lv ts := by
      intro lv; simp [mkPoint, hmeas]
    simp only [runLoop, hfil, hmk, ih]

/-- C9: the locker filter keeps a record exactly when its place id is a
member of the configured list; the list's order is irrelevant to the
test; and deduplicating the configured list changes nothing observable
about a cycle, so duplicate ids cannot double-emit a record. -/
theorem lockerFilter_set_semantics :
    (∀ (S : List Nat) (p : Nat), lockerFilter S p = true ↔ p ∈ S) ∧
    (∀ (S T : List Nat) (p : Nat), S.Perm T → lockerFilter S p = lockerFilter T p) ∧
    (∀ (ic : InstanceConfig) (env : RunEnv),
      run { ic with placeIDs := ic.placeIDs.dedup } env = run ic env) := by
  have hprop : ∀ (S T : List Nat), (∀ q, q ∈ S ↔ q ∈ T) →
      ∀ p, lockerFilter S p = lockerFilter T p := by
    intro S T hst p
    by_cases h : p ∈ S
    · rw [(lockerFilter_iff_mem S p).mpr h, (lockerFilter_iff_mem T p).mpr ((hst p).mp h)]
    · have h2 : p ∉ T := fun ht => h ((hst p).mpr ht)
      have e1 : lockerFilter S p = false := by
        cases hS : lockerFilter S p
        · rfl
        · exact absurd ((lockerFilter_iff_mem S p).mp hS) h
      have e2 : lockerFilter T p = false := by
        cases hT : lockerFilter T p
        · rfl
        · exact absurd ((lockerFilter_iff_mem T p).mp hT) h2
      rw [e1, e2]
  refine ⟨lockerFilter_iff_mem, ?_, ?_⟩
  · intro S T p hperm
    exact hprop S T (fun q => hperm.mem_iff) p
  · intro ic env
    have hfil : ∀ p, lockerFilter ic.placeIDs.dedup p = lockerFilter ic.placeIDs p :=
      hprop ic.placeIDs.dedup ic.placeIDs (fun q => List.mem_dedup)
    have hcongr := runLoop_filter_congr ic { ic with placeIDs := ic.placeIDs.dedup }
      (GetWriter ic env.backendErr) env.ctxErr env.now rfl hfil
    cases hre : env.reqErr with
    | some m => simp [run, hre]
    | none =>
      cases hf : env.fetch with
      | doErr m => simp [run, hre, hf]
      | resp status body =>
        by_cases hs : status = 200
        · subst hs
          cases body with
          | error m => simp [run, hre, hf]
          | ok records =>
            have hg : GetWriter { ic with placeIDs := ic.placeIDs.dedup } env.backendErr
                = GetWriter ic env.backendErr := rfl
            simp only [run, hre, hf]
            rw [hg, hcongr records 0 0]
        · simp [run, hre, hf, hs]

/-- C9 witness: membership, permutation invariance and dedup invariance
at concrete inputs. -/
theorem lockerFilter_set_semantics_witness :
    (lockerFilter [3, 1] 1 = true ↔ 1 ∈ [3, 1]) ∧
    lockerFilter [1, 3] 2 = lockerFilter [3, 1] 2 ∧
    run { icDry with placeIDs := icDry.placeIDs.dedup } (envOk [rec1])
      = run icDry (envOk [rec1]) :=
  ⟨lockerFilter_set_semantics.1 [3, 1] 1,
   lockerFilter_set_semantics.2.1 [1, 3] [3, 1] 2 (by decide),
   lockerFilter_set_semantics.2.2 icDry (envOk [rec1])⟩

/-! ## Claim C10: the empty-split guard is unreachable -/

/-- Splitting never yields an empty list of pieces. -/
lemma splitComma_ne_nil : ∀ l : List Char, splitComma l ≠ [] := by
  intro l
  cases l with
  | nil => simp [splitComma]
  | cons c rest =>
    simp only [splitComma]
    cases h : splitComma rest with
    | nil => simp
    | cons g gs => by_cases hc : c = ',' <;> simp [hc]

/-- Every character of every piece of the split comes from the input. -/
lemma mem_of_mem_splitComma :
    ∀ (l : List Char) (g : List Char), g ∈ splitComma l → ∀ c ∈ g, c ∈ l := by
  intro l
  induction l with
  | nil =>
    intro g hg c hc
    simp [splitComma] at hg
    subst hg
    simp at hc
  | cons a rest ih =>
    intro g hg c hc
    simp only [splitComma] at hg
    cases h : splitComma rest with
    | nil => exact absurd h (splitComma_ne_nil rest)
    | cons g0 gs =>
      rw [h] at hg
      by_cases ha : a = ','
      · simp only [ha, if_true] at hg
        rcases List.mem_cons.mp hg with hg1 | hg1
        · subst hg1; simp at hc
        · have : g ∈ splitComma rest := by rw [h]; exact hg1
          exact List.mem_cons_of_mem a (ih g this c hc)
      · simp only [ha, if_false] at hg
        rcases List.mem_cons.mp hg with hg1 | hg1
        · subst hg1
          rcases List.mem_cons.mp hc with hc1 | hc1
          · subst hc1; exact List.mem_cons_self c rest
          · have : g0 ∈ splitComma rest := by rw [h]; exact List.mem_cons_self g0 gs
            exact List.mem_cons_of_mem a (ih g0 this c hc1)
        · have : g ∈ splitComma rest := by rw [h]; exact List.mem_cons_of_mem g0 hg1
          exact List.mem_cons_of_mem a (ih g this c hc)

/-- The parsing loop never raises the `noPlaceIds` panic. -/
lemma parseAllPlaceIDs_ne_noPlaceIds :
    ∀ ps : List (List Char), parseAllPlaceIDs ps ≠ .error .noPlaceIds := by
  intro ps
  induction ps with
  | nil => simp [parseAllPlaceIDs]
  | cons p rest ih =>
    simp only [parseAllPlaceIDs]
    cases parseUint64 p with
    | none => simp
    | some n =>
      cases h : parseAllPlaceIDs rest with
      | error e =>
        intro hcon
        injection hcon with h2
        rw [h2] at h
        exact ih h
      | ok ns => simp

/-- The whole place-id stage never raises the `noPlaceIds` panic. -/
lemma parsePlaceIDs_ne_noPlaceIds (s : String) :
    parsePlaceIDs s ≠ .error .noPlaceIds := by
  simp only [parsePlaceIDs]
  rw [if_neg (by simpa using splitComma_ne_nil s.data)]
  exact parseAllPlaceIDs_ne_noPlaceIds _

/-- A panicking `stringOrPanic` panics with `missingEnv` of its name. -/
lemma stringOrPanic_error (e : GoEnv) (name : String) (p : ConfigPanic)
    (h : stringOrPanic e name = .error p) : p = .missingEnv name := by
  simp only [stringOrPanic] at h
  cases hv : e.vars name with
  | some v => rw [hv] at h; exact nomatch h
  | none =>
    rw [hv] at h
    injection h with h2
    exact h2.symm

/-- `loadConfig` can panic, but never with `noPlaceIds`. -/
lemma loadConfig_ne_noPlaceIds (e : GoEnv) :
    (loadConfig e).2 ≠ .error .noPlaceIds := by
  cases h0 : stringOrPanic e "FOXPOST_PLACE_IDS" with
  | error p =>
    have hp := stringOrPanic_error e _ p h0
    subst hp
    simp [loadConfig, h0]
  | ok s =>
    cases h1 : parsePlaceIDs s with
    | error p =>
      have hps := parsePlaceIDs_ne_noPlaceIds s
      rw [h1] at hps
      simp only [loadConfig, h0, h1]
      intro hcon
      injection hcon with h2
      exact hps (by rw [h2])
    | ok ids =>
      by_cases hd : e.dryRunFlag
      · simp [loadConfig, h0, h1, hd]
      · cases h2 : stringOrPanic e "INFLUX_SERVER_ORG" with
        | error p =>
          have hp := stringOrPanic_error e _ p h2
          subst hp
          simp [loadConfig, h0, h1, hd, h2]
        | ok org =>
          cases h3 : stringOrPanic e "INFLUX_SERVER_BUCKET" with
          | error p =>
            have hp := stringOrPanic_error e _ p h3
            subst hp
            simp [loadConfig, h0, h1, hd, h2, h3]
          | ok bucket =>
            cases h4 : stringOrPanic e "INFLUX_SERVER_URL" with
            | error p =>
              have hp := stringOrPanic_error e _ p h4
              subst hp
              simp [loadConfig, h0, h1, hd, h2, h3, h4]
            | ok u =>
              cases h5 : stringOrPanic e "INFLUX_SERVER_TOKEN" with
              | error p =>
                have hp := stringOrPanic_error e _ p h5
                subst hp
                simp [loadConfig, h0, h1, hd, h2, h3, h4, h5]
              | ok t =>
                by_cases hh : e.healthOk
                · simp [loadConfig, h0, h1, hd, h2, h3, h4, h5, hh]
                · simp [loadConfig, h0, h1, hd, h2, h3, h4, h5, hh]

/-- A string with no decimal digit (in particular the empty and the
all-blank string) fails the place-id stage with the invalid-place-id
panic. -/
lemma no_digit_invalidPlaceId (s : String) (h : ∀ c ∈ s.data, ¬ c.isDigit = true) :
    parsePlaceIDs s = .error .invalidPlaceId := by
  simp only [parsePlaceIDs]
  cases hsp : splitComma s.data with
  | nil => exact absurd hsp (splitComma_ne_nil s.data)
  | cons g gs =>
    rw [if_neg (by simp)]
    have hg : parseUint64 g = none := by
      simp only [parseUint64]
      by_cases hgnil : g = []
      · simp [hgnil]
      · rw [if_neg hgnil]
        have hall : g.all (fun c => c.isDigit) = false := by
          cases g with
          | nil => exact absurd rfl hgnil
          | cons c0 g2 =>
            have hc0 : c0 ∈ s.data :=
              mem_of_mem_splitComma s.data (c0 :: g2)
                (by rw [hsp]; exact List.mem_cons_self _ _) c0 (List.mem_cons_self c0 g2)
            have hnd := h c0 hc0
            simp [List.all_cons]
            intro hdig
            exact absurd hdig hnd
        rw [hall]
        simp
    simp [parseAllPlaceIDs, hg]

/-- C10: splitting any `FOXPOST_PLACE_IDS` value on commas yields at
least one piece, so the `noPlaceIds` guard is unreachable — neither the
place-id stage nor the whole of `loadConfig` can panic with it — while an
empty or blank value (no digit anywhere) still aborts startup, via the
invalid-place-id panic. -/
theorem no_place_ids_guard_unreachable :
    (∀ s : String, 1 ≤ (splitComma s.data).length) ∧
    (∀ s : String, parsePlaceIDs s ≠ .error .noPlaceIds) ∧
    (∀ e : GoEnv, (loadConfig e).2 ≠ .error .noPlaceIds) ∧
    (∀ s : String, (∀ c ∈ s.data, ¬ c.isDigit = true) →
      parsePlaceIDs s = .error .invalidPlaceId) := by
  refine ⟨?_, parsePlaceIDs_ne_noPlaceIds, loadConfig_ne_noPlaceIds, no_digit_invalidPlaceId⟩
  intro s
  cases h : splitComma s.data with
  | nil => exact absurd h (splitComma_ne_nil s.data)
  | cons g gs => simp

/-- C10 witness: the empty and the one-blank value both split into at
least one piece and abort with the invalid-place-id panic. -/
theorem no_place_ids_guard_unreachable_witness :
    1 ≤ (splitComma "".data).length ∧
    parsePlaceIDs "" = .error .invalidPlaceId ∧
    parsePlaceIDs " " = .error .invalidPlaceId :=
  ⟨no_place_ids_guard_unreachable.1 "",
   no_place_ids_guard_unreachable.2.2.2 "" (by decide),
   no_place_ids_guard_unreachable.2.2.2 " " (by decide)⟩
